import Mathlib

/-
Verification of the memoc composable-allocator toolkit
(src/include/memoc/allocators.h) against its specification.

Shallow embedding conventions:
* Addresses are `Option Int`: `none` models a null pointer, `some a` a
  non-null address `a`.
* `Block<void>::Size_type` is a signed 64-bit integer in the source; it is
  modelled as `Int` (no arithmetic in the embedded paths comes near 2^63).
* Each C++ allocator class becomes a `Policy σ`: a record of the three
  contract operations over an explicit state type `σ`.  `deallocate` takes
  the caller's block by reference in C++, so here it returns the updated
  block together with the updated state.
* `std::malloc` is modelled as an always-succeeding fresh-address source
  (a counter), and `std::free` as a log of the non-null addresses released;
  `free(nullptr)` is a no-op, as in C.
* `std::chrono` timestamps and the intrusive `next` pointers of the record
  and free-list chains are represented by the order of a Lean `List`.
-/

set_option autoImplicit false

namespace Memoc

/-- Modelled from the spec: `Block` lives in memoc/blocks.h, which is not part
of the sources at hand.  Per the spec's data model it is the pair
`{ size : signed integer, addr : raw address or null }` with an explicit
constructor `(s, p)` storing the pair as given. -/
structure Block where
  size : Int
  data : Option Int
deriving Repr, DecidableEq

/-- Modelled from the spec: a Block is empty iff `size == 0 ∨ addr == null`. -/
def Block.empty (b : Block) : Bool :=
  b.size == 0 || b.data == none

/-- Modelled from the spec: the default constructor `Block()` yields `(0, null)`. -/
def emptyBlock : Block := ⟨0, none⟩

/-- The `Allocator` contract (concept `details::Allocator`): the three
operations every policy exposes, over an explicit state `σ`. -/
structure Policy (σ : Type) where
  allocate : Int → σ → Block × σ
  deallocate : Block → σ → Block × σ
  owns : Block → σ → Bool

/-- State of the modelled heap behind `Malloc_allocator`: a fresh-address
counter and the log of non-null addresses passed to `free`. -/
structure MallocState where
  next : Int
  freed : List Int
deriving Repr, DecidableEq

/-- `std::free`: releasing a null pointer is a no-op; a non-null address is
appended to the release log. -/
def mallocFree (p : Option Int) (st : MallocState) : MallocState :=
  match p with
  | none => st
  | some a => { st with freed := a :: st.freed }

/-- `details::Malloc_allocator`.  `allocate` returns `{ s, nullptr }` for
`s <= 0` and otherwise `{ s, std::malloc(s) }` (malloc modelled as always
succeeding with a fresh address); `deallocate` frees the data pointer and
empties the block; `owns` is the boolean value of the data pointer. -/
def Malloc_allocator : Policy MallocState where
  allocate s st :=
    if s ≤ 0 then (⟨s, none⟩, st)
    else (⟨s, some st.next⟩, { st with next := st.next + 1 })
  deallocate b st := (emptyBlock, mallocFree b.data st)
  owns b _ := b.data != none

/-- `Stack_allocator::align`: round a size up to the next multiple of 2. -/
def align (s : Int) : Int :=
  if s % 2 == 0 then s else s + 1

/-- State of `details::Stack_allocator<Size>`: the address `base` of the
embedded buffer `d_` and the bump pointer `p_` (`none` when moved-from).
The buffer's bytes themselves play no observable role. -/
structure StackState where
  base : Int
  p : Option Int
deriving Repr, DecidableEq

/-- `details::Stack_allocator<SIZE>`. -/
def Stack_allocator (SIZE : Int) : Policy StackState where
  allocate s st :=
    match st.p with
    | none => (⟨0, none⟩, st)
    | some q =>
      if q + align s > st.base + SIZE ∨ s ≤ 0 then (⟨0, none⟩, st)
      else (⟨s, some q⟩, { st with p := some (q + align s) })
  deallocate b st :=
    match st.p, b.data with
    | some q, some a =>
      if a = q - align b.size then (emptyBlock, { st with p := some a })
      else (emptyBlock, st)
    | _, _ => (emptyBlock, st)
  owns b st :=
    match b.data with
    | none => false
    | some a => decide (st.base ≤ a ∧ a < st.base + SIZE)

/-- `Stack_allocator` copy constructor: the new object's bump pointer starts
at its own buffer (`p_(d_)`); nothing is taken from the source.  `newBase` is
the address of the copy's own embedded buffer. -/
def stackCopy (_other : StackState) (newBase : Int) : StackState :=
  ⟨newBase, some newBase⟩

/-- `Stack_allocator` copy assignment: resets the target's bump pointer to
the start of its own buffer. -/
def stackCopyAssign (dst : StackState) (_other : StackState) : StackState :=
  { dst with p := some dst.base }

/-- `Stack_allocator` move constructor: the destination starts fresh at its
own buffer and the source's bump pointer is nulled. -/
def stackMove (other : StackState) (newBase : Int) : StackState × StackState :=
  (⟨newBase, some newBase⟩, { other with p := none })

/-- `Stack_allocator` move assignment: destination reset to its buffer start,
source's bump pointer nulled. -/
def stackMoveAssign (dst other : StackState) : StackState × StackState :=
  ({ dst with p := some dst.base }, { other with p := none })

/-- State of `details::Free_list_allocator`: inner-allocator state, the
intrusive free list (head first, an element being the node's address — the
recycled block's data pointer), and the separately tracked `list_size_`
counter, exactly as in the source. -/
structure FLState (ι : Type) where
  inner : ι
  root : List (Option Int)
  list_size : Int
deriving Repr, DecidableEq

/-- `details::Free_list_allocator<I, MIN, MAX, MAXL>`. -/
def Free_list_allocator {ι : Type} (I : Policy ι) (MIN MAX MAXL : Int) :
    Policy (FLState ι) where
  allocate s st :=
    if MIN ≤ s ∧ s ≤ MAX ∧ 0 < st.list_size then
      (⟨s, st.root.head?.join⟩,
       { st with root := st.root.tail, list_size := st.list_size - 1 })
    else
      let r := I.allocate (if s < MIN ∨ MAX < s then s else MAX) st.inner
      (⟨s, r.1.data⟩, { st with inner := r.2 })
  deallocate b st :=
    if b.size < MIN ∨ MAX < b.size ∨ MAXL < st.list_size then
      let r := I.deallocate ⟨MAX, b.data⟩ st.inner
      (emptyBlock, { st with inner := r.2 })
    else
      (emptyBlock,
       { st with root := b.data :: st.root, list_size := st.list_size + 1 })
  owns b st :=
    decide (MIN ≤ b.size ∧ b.size ≤ MAX) || I.owns b st.inner

/-- A statistics record (`Stats_allocator::Record`): the record's own
allocation address, the observed request address, and the signed amount.
The timestamp is omitted (wall-clock time is not modelled) and the `next`
link is represented by list order. -/
structure SRecord where
  record_address : Option Int
  request_address : Option Int
  amount : Int
deriving Repr, DecidableEq

/-- State of `details::Stats_allocator`: inner state, `number_of_records_`,
`total_allocated_`, and the record chain from `root_` (head, oldest) to
`tail_` (last). -/
structure StatsState (ι : Type) where
  inner : ι
  number_of_records : Int
  total_allocated : Int
  records : List SRecord
deriving Repr, DecidableEq

/-- `Stats_allocator::add_record`.  `szRec` stands for
`MEMOC_SSIZEOF(Record)`, the record overhead in bytes (a positive
platform constant, 40 on a typical LP64 build).  When the chain already has
`N` records the oldest (root) record is rotated to the tail and overwritten
in place, reusing its `record_address`; otherwise a fresh record is
allocated from the inner allocator (silently dropped if that fails). -/
def add_record {ι : Type} (I : Policy ι) (N szRec : Int)
    (p : Option Int) (a : Int) (st : StatsState ι) : StatsState ι :=
  if N ≤ st.number_of_records then
    match st.records with
    | [] => st
    | r :: rest =>
      { st with
        records := rest ++ [⟨r.record_address, p, szRec + a⟩],
        total_allocated := st.total_allocated + (szRec + a) }
  else
    let r := I.allocate szRec st.inner
    if r.1.empty then { st with inner := r.2 }
    else
      { st with
        inner := r.2,
        records := st.records ++ [⟨r.1.data, p, r.1.size + a⟩],
        number_of_records := st.number_of_records + 1,
        total_allocated := st.total_allocated + (r.1.size + a) }

/-- `details::Stats_allocator<I, N>` (with `szRec` the record overhead,
see `add_record`). -/
def Stats_allocator {ι : Type} (I : Policy ι) (N szRec : Int) :
    Policy (StatsState ι) where
  allocate s st :=
    let r := I.allocate s st.inner
    if r.1.empty then (r.1, { st with inner := r.2 })
    else (r.1, add_record I N szRec r.1.data r.1.size { st with inner := r.2 })
  deallocate b st :=
    let r := I.deallocate b st.inner
    if r.1.empty then
      (r.1, add_record I N szRec b.data (-b.size) { st with inner := r.2 })
    else (r.1, { st with inner := r.2 })
  owns b st := I.owns b st.inner

/-- `details::Fallback_allocator<P, F>`: state is the pair of the two
sub-allocator states (the source holds both by private inheritance). -/
def Fallback_allocator {σ₁ σ₂ : Type} (P : Policy σ₁) (F : Policy σ₂) :
    Policy (σ₁ × σ₂) where
  allocate s st :=
    let r := P.allocate s st.1
    if r.1.empty then
      let r2 := F.allocate s st.2
      (r2.1, (r.2, r2.2))
    else (r.1, (r.2, st.2))
  deallocate b st :=
    if P.owns b st.1 then
      let r := P.deallocate b st.1
      (r.1, (r.2, st.2))
    else
      let r := F.deallocate b st.2
      (r.1, (st.1, r.2))
  owns b st := P.owns b st.1 || F.owns b st.2

/-- `details::Shared_allocator<I, id>`: forwards every operation to the one
process-wide `I` instance, here threaded explicitly as the state. -/
def Shared_allocator {ι : Type} (I : Policy ι) : Policy ι where
  allocate := I.allocate
  deallocate := I.deallocate
  owns := I.owns

/-- The public error enumeration (`Allocator_error`). -/
inductive Allocator_error where
  | invalid_size
  | unknown
deriving Repr, DecidableEq

/-- The front-door `details::allocate(allocator, size)` returning
`erroc::Expected<Block, Allocator_error>`, modelled as `Except`. -/
def allocate {σ : Type} (T : Policy σ) (allocator : σ) (size : Int) :
    Except Allocator_error Block × σ :=
  if size < 0 then (Except.error Allocator_error.invalid_size, allocator)
  else if size = 0 then (Except.ok emptyBlock, allocator)
  else
    let r := T.allocate size allocator
    if r.1.empty then (Except.error Allocator_error.unknown, r.2)
    else (Except.ok r.1, r.2)

/-- The front-door `details::deallocate(allocator, block)`: unconditional
forward. -/
def deallocate {σ : Type} (T : Policy σ) (allocator : σ) (block : Block) :
    Block × σ :=
  T.deallocate block allocator

/-- The front-door `details::owns(allocator, block)`: unconditional
forward. -/
def owns {σ : Type} (T : Policy σ) (allocator : σ) (block : Block) : Bool :=
  T.owns block allocator

/-- The spec's universal round-trip property (§8, invariant 1), as a
predicate on a policy, a starting state and a request size: if
`b := allocate(s)` is non-empty then `owns(b)` holds on the resulting
allocator and deallocating `b` there hands back an empty Block. -/
def RoundTrip {σ : Type} (P : Policy σ) (st : σ) (s : Int) : Prop :=
  (P.allocate s st).1.empty = false →
    P.owns (P.allocate s st).1 (P.allocate s st).2 = true ∧
    (P.deallocate (P.allocate s st).1 (P.allocate s st).2).1 = emptyBlock

/-- `align` rounds a size up to the smallest even integer at least as
large: it never shrinks, adds at most 1, and always yields an even value. -/
theorem align_ge (s : Int) : s ≤ align s ∧ align s ≤ s + 1 ∧ align s % 2 = 0 := by
  unfold align
  rcases Int.emod_two_eq s with h | h
  · rw [if_pos (by simp [h])]
    omega
  · rw [if_neg (by simp [h])]
    omega

/-- `Stack_allocator::deallocate` hands the caller back an empty Block on
every path. -/
theorem stack_deallocate_fst (SIZE : Int) (b : Block) (st : StackState) :
    ((Stack_allocator SIZE).deallocate b st).1 = emptyBlock := by
  simp only [Stack_allocator]
  split
  · split <;> rfl
  · rfl

/-- `Free_list_allocator::deallocate` hands the caller back an empty Block
on every path. -/
theorem fl_deallocate_fst {ι : Type} (I : Policy ι) (MIN MAX MAXL : Int)
    (b : Block) (st : FLState ι) :
    ((Free_list_allocator I MIN MAX MAXL).deallocate b st).1 = emptyBlock := by
  simp only [Free_list_allocator]
  split <;> rfl

/-- `Fallback_allocator<Stack, Malloc>::deallocate` hands the caller back an
empty Block on every path. -/
theorem fallback_deallocate_fst (SIZE : Int) (b : Block)
    (st : StackState × MallocState) :
    ((Fallback_allocator (Stack_allocator SIZE) Malloc_allocator).deallocate
      b st).1 = emptyBlock := by
  simp only [Fallback_allocator]
  split
  · exact stack_deallocate_fst SIZE _ _
  · rfl

/-- Claim C10: `Malloc_allocator.allocate(s)` with `s ≤ 0` returns the Block
`(s, null)`: the result is empty by virtue of the null address, but its size
field equals the non-positive requested `s` rather than `0`, so a caller can
observe a Block with a negative size. -/
theorem C10_malloc_nonpositive (st : MallocState) (s : Int) (h : s ≤ 0) :
    Malloc_allocator.allocate s st = (⟨s, none⟩, st) ∧
    (Malloc_allocator.allocate s st).1.empty = true ∧
    (Malloc_allocator.allocate s st).1.size = s := by
  have hc : Malloc_allocator.allocate s st = (⟨s, none⟩, st) := by
    simp [Malloc_allocator, h]
  refine ⟨hc, ?_, ?_⟩
  · rw [hc]; simp [Block.empty]
  · rw [hc]

/-- Witness for C10 at `s = -3`: the returned Block carries the negative
size `-3` and a null address. -/
theorem C10_witness :
    Malloc_allocator.allocate (-3) ⟨0, []⟩ = (⟨-3, none⟩, ⟨0, []⟩) ∧
    (Malloc_allocator.allocate (-3) ⟨0, []⟩).1.empty = true ∧
    (Malloc_allocator.allocate (-3) ⟨0, []⟩).1.size = -3 :=
  C10_malloc_nonpositive ⟨0, []⟩ (-3) (by decide)

/-- Claim C9: `Free_list_allocator<I, MIN, MAX, MAXL>.owns(b)` returns true
for every Block whose size lies in `[MIN, MAX]`, regardless of the block's
address — including blocks never allocated by this allocator or by `I`. -/
theorem C9_free_list_owns {ι : Type} (I : Policy ι) (MIN MAX MAXL : Int)
    (st : FLState ι) (b : Block) (h1 : MIN ≤ b.size) (h2 : b.size ≤ MAX) :
    (Free_list_allocator I MIN MAX MAXL).owns b st = true := by
  simp only [Free_list_allocator, Bool.or_eq_true, decide_eq_true_eq]
  exact Or.inl ⟨h1, h2⟩

/-- Witness for C9: a Block of in-range size 3 with a null address, never
produced by any allocator, is reported as owned. -/
theorem C9_witness :
    (Free_list_allocator Malloc_allocator 2 4 1).owns ⟨3, none⟩
      ⟨⟨0, []⟩, [], 0⟩ = true :=
  C9_free_list_owns Malloc_allocator 2 4 1 ⟨⟨0, []⟩, [], 0⟩ ⟨3, none⟩
    (by decide) (by decide)

/-- Claim C8: copying a `Stack_allocator` (copy construction or copy
assignment) resets the copy's bump pointer to the start of its own buffer,
so the copy shares no allocations with the source; moving resets the
destination's pointer to its buffer start and nulls the source's pointer,
so every subsequent `allocate(s)` on the moved-from source returns an empty
Block and leaves it unchanged. -/
theorem C8_stack_copy_move (dst st : StackState) (newBase SIZE s : Int) :
    stackCopy st newBase = ⟨newBase, some newBase⟩ ∧
    stackCopyAssign dst st = ⟨dst.base, some dst.base⟩ ∧
    stackMove st newBase = (⟨newBase, some newBase⟩, ⟨st.base, none⟩) ∧
    stackMoveAssign dst st = (⟨dst.base, some dst.base⟩, ⟨st.base, none⟩) ∧
    (Stack_allocator SIZE).allocate s (stackMove st newBase).2 =
      (⟨0, none⟩, ⟨st.base, none⟩) ∧
    (⟨0, none⟩ : Block).empty = true :=
  ⟨rfl, rfl, rfl, rfl, rfl, rfl⟩

/-- Claim C6: `Stack_allocator` `allocate(s)` rounds `s` up to the next even
multiple: when the request fits, the returned Block has size exactly `s` and
address equal to the old bump pointer, while the pointer advances by the
aligned amount (the smallest even integer `≥ s`). -/
theorem C6_stack_allocate (SIZE : Int) (st : StackState) (q s : Int)
    (hp : st.p = some q) (hs : 0 < s) (hfit : q + align s ≤ st.base + SIZE) :
    (Stack_allocator SIZE).allocate s st =
      (⟨s, some q⟩, ⟨st.base, some (q + align s)⟩) ∧
    s ≤ align s ∧ align s ≤ s + 1 ∧ align s % 2 = 0 := by
  have ha := align_ge s
  refine ⟨?_, ha.1, ha.2.1, ha.2.2⟩
  have hcond : ¬(q + align s > st.base + SIZE ∨ s ≤ 0) := by
    push_neg
    exact ⟨hfit, hs⟩
  simp only [Stack_allocator, hp]
  rw [if_neg hcond]

/-- Witness for C6, the spec's concrete scenario: on a fresh
`Stack_allocator<16>` (buffer at 0), `allocate(3)` returns a Block of size 3
at the old bump pointer and advances the pointer by `align 3 = 4`. -/
theorem C6_witness :
    (Stack_allocator 16).allocate 3 ⟨0, some 0⟩ = (⟨3, some 0⟩, ⟨0, some 4⟩) ∧
    align 3 = 4 :=
  ⟨(C6_stack_allocate 16 ⟨0, some 0⟩ 0 3 rfl (by decide) (by decide)).1, rfl⟩

/-- Claim C4: for every conforming policy and every size, the front-door
`allocate(alloc, size)` returns `invalid_size` iff `size < 0`; returns
success with an empty Block, without invoking the policy, if `size == 0`;
returns `unknown` iff `size > 0` and the policy's allocate returned an empty
Block; and otherwise returns success with exactly the Block the policy
produced. -/
theorem C4_front_door (σ : Type) (T : Policy σ) (st : σ) (size : Int) :
    ((allocate T st size).1 =
        Except.error Allocator_error.invalid_size ↔ size < 0) ∧
    (size = 0 → allocate T st size = (Except.ok emptyBlock, st)) ∧
    ((allocate T st size).1 = Except.error Allocator_error.unknown ↔
        0 < size ∧ (T.allocate size st).1.empty = true) ∧
    (0 < size → (T.allocate size st).1.empty = false →
        allocate T st size =
          (Except.ok (T.allocate size st).1, (T.allocate size st).2)) := by
  refine ⟨?_, ?_, ?_, ?_⟩
  · constructor
    · intro h
      by_contra hneg
      push_neg at hneg
      rcases eq_or_lt_of_le hneg with h0 | hpos
      · simp [allocate, ← h0] at h
      · simp only [allocate, if_neg (by omega : ¬size < 0),
          if_neg (by omega : ¬size = 0)] at h
        split at h <;> simp at h
    · intro h
      simp [allocate, h]
  · intro h
    simp [allocate, h]
  · constructor
    · intro h
      rcases lt_trichotomy size 0 with hlt | h0 | hpos
      · simp [allocate, hlt] at h
      · simp [allocate, h0] at h
      · refine ⟨hpos, ?_⟩
        simp only [allocate, if_neg (by omega : ¬size < 0),
          if_neg (by omega : ¬size = 0)] at h
        by_contra hne
        rw [if_neg (by simpa using hne)] at h
        simp at h
    · rintro ⟨hpos, hempty⟩
      simp [allocate, if_neg (by omega : ¬size < 0),
        if_neg (by omega : ¬size = 0), hempty]
  · intro hpos hempty
    simp [allocate, if_neg (by omega : ¬size < 0),
      if_neg (by omega : ¬size = 0), hempty]

/-- Witness for C4: the empty-policy-free path at `size = 0` on the heap
policy returns success with the empty Block and leaves the state alone, and
`size = -1` yields `invalid_size`. -/
theorem C4_witness :
    allocate Malloc_allocator ⟨0, []⟩ 0 = (Except.ok emptyBlock, ⟨0, []⟩) ∧
    (allocate Malloc_allocator ⟨0, []⟩ (-1)).1 =
      Except.error Allocator_error.invalid_size :=
  ⟨(C4_front_door MallocState Malloc_allocator ⟨0, []⟩ 0).2.1 rfl,
   (C4_front_door MallocState Malloc_allocator ⟨0, []⟩ (-1)).1.2 (by decide)⟩

/-- Claim C7: `Fallback_allocator<P, F>.allocate(s)` returns `P`'s Block
whenever `P.allocate(s)` is non-empty, and otherwise returns `F.allocate(s)`
(the primary's state advances either way); its `deallocate(&b)` routes `b`
to `P` exactly when `P.owns(b)` is true and otherwise routes it to `F`. -/
theorem C7_fallback_routing (σ₁ σ₂ : Type) (P : Policy σ₁) (F : Policy σ₂)
    (s : Int) (st : σ₁ × σ₂) (b : Block) :
    ((P.allocate s st.1).1.empty = false →
      (Fallback_allocator P F).allocate s st =
        ((P.allocate s st.1).1, ((P.allocate s st.1).2, st.2))) ∧
    ((P.allocate s st.1).1.empty = true →
      (Fallback_allocator P F).allocate s st =
        ((F.allocate s st.2).1,
         ((P.allocate s st.1).2, (F.allocate s st.2).2))) ∧
    (P.owns b st.1 = true →
      (Fallback_allocator P F).deallocate b st =
        ((P.deallocate b st.1).1, ((P.deallocate b st.1).2, st.2))) ∧
    (P.owns b st.1 = false →
      (Fallback_allocator P F).deallocate b st =
        ((F.deallocate b st.2).1, (st.1, (F.deallocate b st.2).2))) := by
  refine ⟨?_, ?_, ?_, ?_⟩ <;> intro h <;> simp [Fallback_allocator, h]

/-- Witness for C7, exercising both allocation branches and one deallocation
route: on a fresh `Fallback_allocator<Stack_allocator<4>, Malloc_allocator>`
the primary serves `allocate(2)`, an oversized `allocate(6)` falls through to
the heap policy, and a block outside the stack buffer routes to the heap on
deallocation. -/
theorem C7_witness :
    (Fallback_allocator (Stack_allocator 4) Malloc_allocator).allocate 2
        (⟨0, some 0⟩, ⟨10, []⟩) = (⟨2, some 0⟩, (⟨0, some 2⟩, ⟨10, []⟩)) ∧
    (Fallback_allocator (Stack_allocator 4) Malloc_allocator).allocate 6
        (⟨0, some 0⟩, ⟨10, []⟩) = (⟨6, some 10⟩, (⟨0, some 0⟩, ⟨11, []⟩)) ∧
    (Fallback_allocator (Stack_allocator 4) Malloc_allocator).deallocate
        ⟨6, some 10⟩ (⟨0, some 0⟩, ⟨11, []⟩) =
      (emptyBlock, (⟨0, some 0⟩, ⟨11, [10]⟩)) :=
  ⟨(C7_fallback_routing StackState MallocState (Stack_allocator 4)
      Malloc_allocator 2 (⟨0, some 0⟩, ⟨10, []⟩) emptyBlock).1 (by decide),
   (C7_fallback_routing StackState MallocState (Stack_allocator 4)
      Malloc_allocator 6 (⟨0, some 0⟩, ⟨10, []⟩) emptyBlock).2.1 (by decide),
   (C7_fallback_routing StackState MallocState (Stack_allocator 4)
      Malloc_allocator 6 (⟨0, some 0⟩, ⟨11, []⟩) ⟨6, some 10⟩).2.2.2
     (by decide)⟩

/-- Counterexample to claim C1: on `Free_list_allocator<Malloc, 2, 4, 1>`
holding exactly `MAX_LIST = 1` recycled block, deallocating a block of
in-range size 2 does NOT forward to the inner allocator: the free list grows
to 2 nodes and the inner allocator's release log stays empty.  The guard in
the source is `list_size_ > Max_list_size`, which is false at
`list_size_ == Max_list_size`. -/
theorem C1_counterexample :
    ((Free_list_allocator Malloc_allocator 2 4 1).deallocate ⟨2, some 200⟩
        ⟨⟨7, []⟩, [some 100], 1⟩).2.list_size = 2 ∧
    ((Free_list_allocator Malloc_allocator 2 4 1).deallocate ⟨2, some 200⟩
        ⟨⟨7, []⟩, [some 100], 1⟩).2.root = [some 200, some 100] ∧
    ((Free_list_allocator Malloc_allocator 2 4 1).deallocate ⟨2, some 200⟩
        ⟨⟨7, []⟩, [some 100], 1⟩).2.inner.freed = [] := by
  refine ⟨?_, ?_, ?_⟩ <;> decide

/-- Claim C1 as amended: for a block of size in `[MIN, MAX]`, deallocate
pushes the block onto the free list (growing it, and leaving the inner
allocator untouched) whenever `list_size ≤ MAX_LIST` — including when the
list already holds exactly `MAX_LIST` blocks, which therefore grows it to
`MAX_LIST + 1`; only once `list_size > MAX_LIST` does a further deallocate
forward the reconstructed `(MAX, b.addr)` block to the inner allocator `I`
and empty the caller's Block without touching the list. -/
theorem C1_free_list_deallocate_threshold (ι : Type) (I : Policy ι)
    (MIN MAX MAXL : Int) (st : FLState ι) (b : Block)
    (hmin : MIN ≤ b.size) (hmax : b.size ≤ MAX) :
    (st.list_size ≤ MAXL →
      (Free_list_allocator I MIN MAX MAXL).deallocate b st =
        (emptyBlock,
         { st with root := b.data :: st.root,
                   list_size := st.list_size + 1 })) ∧
    (MAXL < st.list_size →
      (Free_list_allocator I MIN MAX MAXL).deallocate b st =
        (emptyBlock,
         { st with inner := (I.deallocate ⟨MAX, b.data⟩ st.inner).2 })) := by
  constructor
  · intro h
    simp only [Free_list_allocator]
    rw [if_neg (by push_neg; exact ⟨by omega, by omega, by omega⟩)]
  · intro h
    simp only [Free_list_allocator]
    rw [if_pos (Or.inr (Or.inr h))]

/-- Witness for the amended C1: with `MAX_LIST = 1`, a list of 2 recycled
blocks (size already past the cap) forwards the next in-range free as a
`(MAX, addr)` block to the heap policy, which logs the release of address
200, while the list is left as is; and with a list of exactly 1 block the
free is pushed instead. -/
theorem C1_witness :
    (Free_list_allocator Malloc_allocator 2 4 1).deallocate ⟨2, some 200⟩
        ⟨⟨7, []⟩, [some 100, some 101], 2⟩ =
      (emptyBlock, ⟨⟨7, [200]⟩, [some 100, some 101], 2⟩) ∧
    (Free_list_allocator Malloc_allocator 2 4 1).deallocate ⟨2, some 200⟩
        ⟨⟨7, []⟩, [some 100], 1⟩ =
      (emptyBlock, ⟨⟨7, []⟩, [some 200, some 100], 2⟩) :=
  ⟨(C1_free_list_deallocate_threshold MallocState Malloc_allocator 2 4 1
      ⟨⟨7, []⟩, [some 100, some 101], 2⟩ ⟨2, some 200⟩ (by decide)
      (by decide)).2 (by decide),
   (C1_free_list_deallocate_threshold MallocState Malloc_allocator 2 4 1
      ⟨⟨7, []⟩, [some 100], 1⟩ ⟨2, some 200⟩ (by decide) (by decide)).1
     (by decide)⟩

/-- Counterexample to claim C2: `Stats_allocator` (here over the heap policy,
with `N = 2` and record overhead 40) is a policy of the toolkit for which
deallocating the empty Block `(0, null)` is NOT a no-op: the inner
deallocation empties the block, so a deallocation record is appended —
`stats_list_size` goes from 0 to 1, a record of amount `40 - 0 = 40` appears,
and `total_allocated` grows by 40. -/
theorem C2_counterexample :
    ((Stats_allocator Malloc_allocator 2 40).deallocate emptyBlock
        ⟨⟨0, []⟩, 0, 0, []⟩).2.number_of_records = 1 ∧
    ((Stats_allocator Malloc_allocator 2 40).deallocate emptyBlock
        ⟨⟨0, []⟩, 0, 0, []⟩).2.records = [⟨some 0, none, 40⟩] ∧
    ((Stats_allocator Malloc_allocator 2 40).deallocate emptyBlock
        ⟨⟨0, []⟩, 0, 0, []⟩).2.total_allocated = 40 := by
  refine ⟨?_, ?_, ?_⟩ <;> decide

/-- Claim C2 as amended: deallocating the canonical empty Block `(0, null)`
is a no-op — state unchanged, no release logged, Block still empty — for the
heap, arena, fallback, free-list-over-heap and shared policies; the
statistics policy is the exception: its deallocate of `(0, null)` still
appends a (positive-amount) deallocation record, although it releases no
user memory and leaves the caller's Block empty. -/
theorem C2_empty_deallocate (SIZE MIN MAX MAXL : Int) (hMIN : 1 < MIN)
    (mst : MallocState) (sst : StackState) (fbst : StackState × MallocState)
    (flst : FLState MallocState) :
    Malloc_allocator.deallocate emptyBlock mst = (emptyBlock, mst) ∧
    (Stack_allocator SIZE).deallocate emptyBlock sst = (emptyBlock, sst) ∧
    (Fallback_allocator (Stack_allocator SIZE) Malloc_allocator).deallocate
        emptyBlock fbst = (emptyBlock, fbst) ∧
    (Free_list_allocator Malloc_allocator MIN MAX MAXL).deallocate
        emptyBlock flst = (emptyBlock, flst) ∧
    (Shared_allocator Malloc_allocator).deallocate emptyBlock mst =
      (emptyBlock, mst) ∧
    ((Stats_allocator Malloc_allocator 2 40).deallocate emptyBlock
        ⟨⟨0, []⟩, 0, 0, []⟩).1 = emptyBlock ∧
    ((Stats_allocator Malloc_allocator 2 40).deallocate emptyBlock
        ⟨⟨0, []⟩, 0, 0, []⟩).2.inner.freed = [] ∧
    ((Stats_allocator Malloc_allocator 2 40).deallocate emptyBlock
        ⟨⟨0, []⟩, 0, 0, []⟩).2.number_of_records = 1 := by
  obtain ⟨sb, sp⟩ := sst
  obtain ⟨⟨fb, fp⟩, fm⟩ := fbst
  refine ⟨rfl, ?_, ?_, ?_, rfl, by decide, by decide, by decide⟩
  · cases sp <;> rfl
  · rfl
  · simp only [Free_list_allocator]
    rw [if_pos (Or.inl (by simp [emptyBlock]; omega))]
    rfl

/-- Witness for the amended C2, at a concrete populated state of each
policy. -/
theorem C2_witness :
    Malloc_allocator.deallocate emptyBlock ⟨5, [3]⟩ = (emptyBlock, ⟨5, [3]⟩) ∧
    (Stack_allocator 16).deallocate emptyBlock ⟨0, some 6⟩ =
      (emptyBlock, ⟨0, some 6⟩) ∧
    (Fallback_allocator (Stack_allocator 16) Malloc_allocator).deallocate
        emptyBlock (⟨0, some 6⟩, ⟨5, [3]⟩) =
      (emptyBlock, (⟨0, some 6⟩, ⟨5, [3]⟩)) ∧
    (Free_list_allocator Malloc_allocator 2 4 1).deallocate emptyBlock
        ⟨⟨5, [3]⟩, [some 100], 1⟩ = (emptyBlock, ⟨⟨5, [3]⟩, [some 100], 1⟩) :=
  ⟨(C2_empty_deallocate 16 2 4 1 (by decide) ⟨5, [3]⟩ ⟨0, some 6⟩
      (⟨0, some 6⟩, ⟨5, [3]⟩) ⟨⟨5, [3]⟩, [some 100], 1⟩).1,
   (C2_empty_deallocate 16 2 4 1 (by decide) ⟨5, [3]⟩ ⟨0, some 6⟩
      (⟨0, some 6⟩, ⟨5, [3]⟩) ⟨⟨5, [3]⟩, [some 100], 1⟩).2.1,
   (C2_empty_deallocate 16 2 4 1 (by decide) ⟨5, [3]⟩ ⟨0, some 6⟩
      (⟨0, some 6⟩, ⟨5, [3]⟩) ⟨⟨5, [3]⟩, [some 100], 1⟩).2.2.1,
   (C2_empty_deallocate 16 2 4 1 (by decide) ⟨5, [3]⟩ ⟨0, some 6⟩
      (⟨0, some 6⟩, ⟨5, [3]⟩) ⟨⟨5, [3]⟩, [some 100], 1⟩).2.2.2.1⟩

/-- Counterexample to claim C3: on `Stats_allocator<Malloc, 2>` (record
overhead 40), allocating 10 bytes and then deallocating the returned block
appends a deallocation record whose amount is `40 - 10 = 30`, which is NOT
strictly negative. -/
theorem C3_counterexample :
    (((Stats_allocator Malloc_allocator 2 40).deallocate ⟨10, some 0⟩
        (((Stats_allocator Malloc_allocator 2 40).allocate 10
            ⟨⟨0, []⟩, 0, 0, []⟩).2)).2.records.getLast?.map SRecord.amount) =
      some 30 ∧ (0 : Int) < 30 := by
  constructor <;> decide

/-- Any record appended by `add_record` over the heap policy carries the
amount `szRec + a`: both the ring-overwrite and the fresh-record branch add
the record overhead to the signed request amount. -/
theorem add_record_amount (N szRec : Int) (hsz : 0 < szRec) (p : Option Int)
    (a : Int) (st : StatsState MallocState) (r : SRecord)
    (h : (add_record Malloc_allocator N szRec p a st).records.getLast? =
      some r) :
    r.amount = szRec + a := by
  unfold add_record at h
  by_cases hN : N ≤ st.number_of_records
  · rw [if_pos hN] at h
    rcases hrec : st.records with _ | ⟨rec, rest⟩
    · rw [hrec] at h
      simp [hrec] at h
    · rw [hrec] at h
      simp only [List.getLast?_append_cons, List.getLast?_singleton,
        Option.some.injEq] at h
      rw [← h]
  · rw [if_neg hN] at h
    have hb : (Malloc_allocator.allocate szRec st.inner).1 =
        ⟨szRec, some st.inner.next⟩ := by
      simp only [Malloc_allocator]
      rw [if_neg (by omega : ¬szRec ≤ 0)]
    simp only [hb] at h
    rw [if_neg (by simp [Block.empty]; omega)] at h
    simp only [List.getLast?_append_cons, List.getLast?_singleton,
      Option.some.injEq] at h
    rw [← h]

/-- Claim C3 as amended (statistics policy over the heap policy): every
record appended by a successful `allocate(s)` carries the amount
`overhead + s`, strictly positive; every record appended by a `deallocate`
carries the amount `overhead - size`, which is strictly negative iff the
deallocated block's size exceeds the record overhead (and nonnegative for
blocks no larger than the overhead). -/
theorem C3_stats_record_amounts (N szRec : Int) (hsz : 0 < szRec)
    (st : StatsState MallocState) (s : Int) (hs : 0 < s) (b : Block)
    (r1 r2 : SRecord) :
    (((Stats_allocator Malloc_allocator N szRec).allocate s
          st).2.records.getLast? = some r1 →
        r1.amount = szRec + s ∧ 0 < r1.amount) ∧
    (((Stats_allocator Malloc_allocator N szRec).deallocate b
          st).2.records.getLast? = some r2 →
        r2.amount = szRec - b.size ∧ (r2.amount < 0 ↔ szRec < b.size)) := by
  constructor
  · intro h
    have hb : (Malloc_allocator.allocate s st.inner).1 =
        ⟨s, some st.inner.next⟩ := by
      simp only [Malloc_allocator]
      rw [if_neg (by omega : ¬s ≤ 0)]
    simp only [Stats_allocator, hb] at h
    rw [if_neg (by simp [Block.empty]; omega)] at h
    have := add_record_amount N szRec hsz
      (⟨s, some st.inner.next⟩ : Block).data
      (⟨s, some st.inner.next⟩ : Block).size _ r1 h
    simp at this
    omega
  · intro h
    simp only [Stats_allocator, Malloc_allocator] at h
    rw [if_pos (by decide : emptyBlock.empty = true)] at h
    have := add_record_amount N szRec hsz b.data (-b.size) _ r2 h
    omega

/-- Witness for the amended C3 at `N = 2`, overhead 40: allocating 10 bytes
appends a record of amount 50 > 0, and deallocating a 10-byte block appends
a record of amount 30, illustrating the corrected sign condition
(`30 < 0 ↔ 40 < 10` is false on both sides). -/
theorem C3_witness :
    ((((Stats_allocator Malloc_allocator 2 40).allocate 10
          ⟨⟨0, []⟩, 0, 0, []⟩).2.records.getLast? = some ⟨some 1, some 0, 50⟩) →
        (50 : Int) = 40 + 10 ∧ (0 : Int) < 50) ∧
    ((((Stats_allocator Malloc_allocator 2 40).deallocate ⟨10, some 0⟩
          ⟨⟨0, []⟩, 0, 0, []⟩).2.records.getLast? =
            some ⟨some 1, some 0, 30⟩) →
        (30 : Int) = 40 - 10 ∧ ((30 : Int) < 0 ↔ (40 : Int) < 10)) := by
  have h := C3_stats_record_amounts 2 40 (by decide) ⟨⟨0, []⟩, 0, 0, []⟩ 10
    (by decide) ⟨10, some 0⟩ ⟨some 1, some 0, 50⟩ ⟨some 1, some 0, 30⟩
  exact ⟨fun hh => h.1 hh, fun hh => h.2 hh⟩

/-- Claim C5, the round-trip invariant, for every policy of the toolkit
(leaf policies as they are; composing policies over representative inner
policies; the arena policy additionally assumes the reachable-state
invariant that its bump pointer is live and at or past the buffer start):
for every `s > 0`, if `allocate(s)` returns a non-empty Block then `owns`
holds for it on the same allocator and deallocating it leaves the caller's
Block empty. -/
theorem C5_round_trip :
    (∀ (st : MallocState) (s : Int), 0 < s →
      RoundTrip Malloc_allocator st s) ∧
    (∀ (SIZE : Int) (st : StackState) (q s : Int), 0 < s →
      st.p = some q → st.base ≤ q → RoundTrip (Stack_allocator SIZE) st s) ∧
    (∀ (MIN MAX MAXL : Int) (st : FLState MallocState) (s : Int), 0 < s →
      RoundTrip (Free_list_allocator Malloc_allocator MIN MAX MAXL) st s) ∧
    (∀ (SIZE : Int) (st : StackState × MallocState) (s : Int), 0 < s →
      RoundTrip (Fallback_allocator (Stack_allocator SIZE)
        Malloc_allocator) st s) ∧
    (∀ (N szRec : Int) (st : StatsState MallocState) (s : Int), 0 < s →
      RoundTrip (Stats_allocator Malloc_allocator N szRec) st s) ∧
    (∀ (st : MallocState) (s : Int), 0 < s →
      RoundTrip (Shared_allocator Malloc_allocator) st s) := by
  have hmalloc : ∀ (st : MallocState) (s : Int), 0 < s →
      RoundTrip Malloc_allocator st s := by
    intro st s hs
    unfold RoundTrip
    intro hemp
    have hb : Malloc_allocator.allocate s st =
        (⟨s, some st.next⟩, { st with next := st.next + 1 }) := by
      simp only [Malloc_allocator]
      rw [if_neg (by omega : ¬s ≤ 0)]
    rw [hb]
    exact ⟨rfl, rfl⟩
  refine ⟨hmalloc, ?_, ?_, ?_, ?_, fun st s hs => hmalloc st s hs⟩
  · intro SIZE st q s hs hp hq
    unfold RoundTrip
    intro hemp
    by_cases hc : q + align s > st.base + SIZE ∨ s ≤ 0
    · exfalso
      have hb : (Stack_allocator SIZE).allocate s st = (⟨0, none⟩, st) := by
        simp only [Stack_allocator, hp]
        rw [if_pos hc]
      rw [hb] at hemp
      simp [Block.empty] at hemp
    · have hb : (Stack_allocator SIZE).allocate s st =
          (⟨s, some q⟩, ⟨st.base, some (q + align s)⟩) := by
        simp only [Stack_allocator, hp]
        rw [if_neg hc]
      rw [hb]
      push_neg at hc
      have ha := (align_ge s).1
      refine ⟨?_, stack_deallocate_fst SIZE _ _⟩
      simp only [Stack_allocator, decide_eq_true_eq]
      exact ⟨hq, by omega⟩
  · intro MIN MAX MAXL st s hs
    unfold RoundTrip
    intro hemp
    have hdata : ((Free_list_allocator Malloc_allocator MIN MAX
        MAXL).allocate s st).1.data ≠ none := by
      intro hnone
      simp [Block.empty, hnone] at hemp
    constructor
    · simp only [Free_list_allocator, Malloc_allocator, Bool.or_eq_true,
        bne_iff_ne]
      right
      exact hdata
    · exact fl_deallocate_fst Malloc_allocator MIN MAX MAXL _ _
  · intro SIZE st s hs
    unfold RoundTrip
    intro hemp
    have hdata : ((Fallback_allocator (Stack_allocator SIZE)
        Malloc_allocator).allocate s st).1.data ≠ none := by
      intro hnone
      simp [Block.empty, hnone] at hemp
    constructor
    · simp only [Fallback_allocator, Malloc_allocator, Bool.or_eq_true,
        bne_iff_ne]
      right
      exact hdata
    · exact fallback_deallocate_fst SIZE _ _
  · intro N szRec st s hs
    unfold RoundTrip
    intro hemp
    have hb : Malloc_allocator.allocate s st.inner =
        (⟨s, some st.inner.next⟩,
         { st.inner with next := st.inner.next + 1 }) := by
      simp only [Malloc_allocator]
      rw [if_neg (by omega : ¬s ≤ 0)]
    have hA : (Stats_allocator Malloc_allocator N szRec).allocate s st =
        (⟨s, some st.inner.next⟩,
         add_record Malloc_allocator N szRec (some st.inner.next) s
           { st with inner := { st.inner with next := st.inner.next + 1 } }) := by
      simp only [Stats_allocator, hb]
      rw [if_neg (by simp [Block.empty]; omega)]
    rw [hA]
    exact ⟨rfl, rfl⟩

/-- Witness for C5, on the arena conjunct: a fresh `Stack_allocator<16>`
serves `allocate(3)` with a non-empty block that it owns, and deallocating
it returns an empty Block. -/
theorem C5_witness :
    (Stack_allocator 16).owns
        ((Stack_allocator 16).allocate 3 ⟨0, some 0⟩).1
        ((Stack_allocator 16).allocate 3 ⟨0, some 0⟩).2 = true ∧
    ((Stack_allocator 16).deallocate
        ((Stack_allocator 16).allocate 3 ⟨0, some 0⟩).1
        ((Stack_allocator 16).allocate 3 ⟨0, some 0⟩).2).1 = emptyBlock :=
  C5_round_trip.2.1 16 ⟨0, some 0⟩ 0 3 (by decide) rfl (by decide) (by decide)

end Memoc
